import Mathlib

/-!
Verification of the SQL-generation core of main1.py.

The program is a three-stage pipeline: per-line parsing into a table
descriptor (parse_table_line), identifier validation (is_valid_name)
and SQL assembly (generate_sql).  Strings are modelled as lists of
characters; the Python string primitives used by the source (strip,
split with a separator, split on whitespace, upper, re.match of the
identifier pattern) are given explicit executable definitions below.
-/

namespace SQLBot

/-- Whitespace characters recognised by the Python primitives str.strip
and argument-free str.split, restricted to the ASCII range (inputs of
the program are modelled as ASCII plus the Cyrillic message texts,
which never reach these primitives). -/
def isPySpace (c : Char) : Bool :=
  c == ' ' || c == '\t' || c == '\n' || c == '\r' || c == '\x0b' || c == '\x0c'

/-- Python str.strip with no argument: drop whitespace from both ends. -/
def pyStrip (s : List Char) : List Char :=
  ((s.dropWhile isPySpace).reverse.dropWhile isPySpace).reverse

/-- Python str.upper, on the ASCII case mapping.  The source applies
upper only after the identifier pattern matched, so every character is
then an ASCII letter, digit or underscore and the ASCII mapping agrees
with Python. -/
def pyUpper (s : List Char) : List Char :=
  s.map Char.toUpper

/-- Split at every character satisfying p, keeping empty pieces: the
behaviour of Python str.split with a one-character separator when p
tests equality with that character. -/
def splitWhen (p : Char → Bool) : List Char → List (List Char)
  | [] => [[]]
  | c :: cs =>
    if p c then
      [] :: splitWhen p cs
    else
      match splitWhen p cs with
      | [] => [[c]]
      | piece :: rest => (c :: piece) :: rest

/-- Python str.split with no argument: split on whitespace runs and drop
the empty pieces. -/
def pySplitWs (s : List Char) : List (List Char) :=
  (splitWhen isPySpace s).filter (fun t => !t.isEmpty)

/-- Does the first list occur at the start of the second list?  Used as
the separator test of the multi-character split. -/
def leadsWith : List Char → List Char → Bool
  | [], _ => true
  | _ :: _, [] => false
  | a :: pat, b :: s => a == b && leadsWith pat s

/-- Worker of pySplitOn.  The numeric argument counts separator
characters that still have to be consumed after a separator match, so
the recursion is structural on the text. -/
def pySplitOnGo (sep : List Char) : List Char → Nat → List Char → List (List Char)
  | [], _, acc => [acc.reverse]
  | _ :: cs, Nat.succ k, acc => pySplitOnGo sep cs k acc
  | c :: cs, 0, acc =>
    if leadsWith sep (c :: cs) then
      acc.reverse :: pySplitOnGo sep cs (sep.length - 1) []
    else
      pySplitOnGo sep cs 0 (c :: acc)

/-- Python str.split with a non-empty separator string, scanning left
to right for non-overlapping occurrences; the source uses it with the
separator " : ". -/
def pySplitOn (sep s : List Char) : List (List Char) :=
  pySplitOnGo sep s 0 []

/-- Character class of the first character of VALID_NAME_REGEX. -/
def isIdentStart (c : Char) : Bool :=
  c.isAlpha || c == '_'

/-- Character class of the later characters of VALID_NAME_REGEX. -/
def isIdentChar (c : Char) : Bool :=
  c.isAlphanum || c == '_'

/-- The identifier shape of VALID_NAME_REGEX: a letter or underscore
followed by letters, digits or underscores, covering the whole string. -/
def matchesShape : List Char → Bool
  | [] => false
  | c :: cs => isIdentStart c && cs.all isIdentChar

/-- Python re.match of VALID_NAME_REGEX.  The dollar anchor of the
pattern matches at the end of the string and also just before a single
newline that ends the string, which this definition reproduces. -/
def regexMatchValidName (s : List Char) : Bool :=
  matchesShape s || (s.getLast? == some '\n' && matchesShape s.dropLast)

/-- The SQL_RESERVED_KEYWORDS set of the source. -/
def SQL_RESERVED_KEYWORDS : List (List Char) :=
  ["SELECT", "FROM", "WHERE", "INSERT", "UPDATE", "DELETE", "JOIN", "GROUP", "ORDER", "BY",
   "HAVING", "IN", "IS", "NULL", "AND", "OR", "NOT", "LIKE", "BETWEEN", "EXISTS", "DISTINCT",
   "CASE", "WHEN", "THEN", "ELSE", "END"].map String.toList

/-- Validation of a table, alias or column name: the identifier pattern
must match and the upper-cased name must not be a reserved keyword. -/
def is_valid_name (name : List Char) : Bool :=
  regexMatchValidName name && !(SQL_RESERVED_KEYWORDS.contains (pyUpper name))

/-- The dictionary built by parse_table_line, one per input line. -/
structure TableDescriptor where
  name : List Char
  «alias» : Option (List Char)
  columns : List (List Char)
  join_condition : Option (List Char)
deriving DecidableEq, Repr

/-- Alias extraction of parse_table_line: if the token "-" occurs in
the token list of the table-spec segment, the alias is the token after
its first occurrence, or None when no token follows. -/
def aliasOfParts (table_name_parts : List (List Char)) : Option (List Char) :=
  if table_name_parts.contains ['-'] then
    let alias_index := table_name_parts.findIdx (fun p => p == ['-'])
    if alias_index + 1 < table_name_parts.length then
      some (table_name_parts.getD (alias_index + 1) [])
    else
      none
  else
    none

/-- The line parser of the source: trim, split on the separator " : "
into table spec, columns and join condition, split the spec on single
spaces for the name and alias. -/
def parse_table_line (line : List Char) : TableDescriptor :=
  let table_info := pySplitOn " : ".toList (pyStrip line)
  let table_name_parts := splitWhen (fun c => c == ' ') (table_info.headD [])
  let table_name := table_name_parts.headD []
  let tableAlias := aliasOfParts table_name_parts
  let columns :=
    if 1 < table_info.length ∧ table_info.getD 1 [] ≠ [] then
      pySplitWs (table_info.getD 1 [])
    else
      [['*']]
  let join_condition :=
    if 2 < table_info.length then some (pyStrip (table_info.getD 2 [])) else none
  { name := table_name, «alias» := tableAlias, columns := columns, join_condition := join_condition }

/-- Error text of the empty-query branch. -/
def errEmptyQuery : List Char :=
  "Ошибка: Запрос не должен быть пустым.".toList

/-- Error text for an invalid table name, interpolating the name. -/
def errInvalidTable (name : List Char) : List Char :=
  "Ошибка: Имя таблицы '".toList ++ name ++ "' недопустимо или зарезервировано.".toList

/-- Error text for an invalid alias, interpolating the alias. -/
def errInvalidAlias (a : List Char) : List Char :=
  "Ошибка: Псевдоним '".toList ++ a ++ "' недопустим или зарезервирован.".toList

/-- Error text for an invalid column name; the offending column is not
interpolated. -/
def errInvalidColumns : List Char :=
  "Ошибка: Одно из имен столбцов недопустимо или зарезервировано.".toList

/-- Error text of the aggregate join-condition check. -/
def errMissingJoin : List Char :=
  "Ошибка: Все таблицы, кроме первой, должны иметь условие соединения.".toList

/-- Python truthiness of the optional string fields: None and the empty
string are falsy. -/
def truthy : Option (List Char) → Bool
  | none => false
  | some s => !s.isEmpty

/-- The three per-line checks of generate_sql, in source order: table
name, then alias when truthy, then the non-wildcard columns. -/
def checkTable (t : TableDescriptor) : Option (List Char) :=
  if !is_valid_name t.name then
    some (errInvalidTable t.name)
  else if truthy t.«alias» && !is_valid_name (t.«alias».getD []) then
    some (errInvalidAlias (t.«alias».getD []))
  else if !((t.columns.filter (fun col => !(col == ['*']))).all is_valid_name) then
    some errInvalidColumns
  else
    none

/-- The validation loop of generate_sql: first failing check wins, in
line order. -/
def validateTables : List TableDescriptor → Option (List Char)
  | [] => none
  | t :: ts =>
    match checkTable t with
    | some e => some e
    | none => validateTables ts

/-- The expression alias-or-name used when qualifying columns: the
alias when truthy, else the table name. -/
def aliasOrName (t : TableDescriptor) : List Char :=
  if truthy t.«alias» then t.«alias».getD [] else t.name

/-- The qualified column list one table contributes to the SELECT list. -/
def formatted_columns (t : TableDescriptor) : List (List Char) :=
  t.columns.map (fun col => aliasOrName t ++ ('.' :: col))

/-- Rendering of an optional string inside an f-string: None prints as
the text None. -/
def pyShowOpt : Option (List Char) → List Char
  | none => "None".toList
  | some s => s

/-- The FROM clause rendered from the first table. -/
def fromClause (t : TableDescriptor) : List Char :=
  if truthy t.«alias» then
    "FROM ".toList ++ t.name ++ " AS ".toList ++ t.«alias».getD []
  else
    "FROM ".toList ++ t.name

/-- The JOIN clause rendered from a table after the first, starting
with a newline as in the source. -/
def joinClause (t : TableDescriptor) : List Char :=
  if truthy t.«alias» then
    "\nJOIN ".toList ++ t.name ++ " AS ".toList ++ t.«alias».getD [] ++
      " ON ".toList ++ pyShowOpt t.join_condition
  else
    "\nJOIN ".toList ++ t.name ++ " ON ".toList ++ pyShowOpt t.join_condition

/-- The SELECT column list accumulated across all tables in order. -/
def selectColumns (tables : List TableDescriptor) : List (List Char) :=
  (tables.map formatted_columns).flatten

/-- The JOIN clauses of all tables after the first, in order. -/
def joinClauses (tables : List TableDescriptor) : List (List Char) :=
  (tables.drop 1).map joinClause

/-- The FROM clause of the first table; empty when there is no table,
as the source initialises from_clause to the empty string. -/
def firstFromClause : List TableDescriptor → List Char
  | [] => []
  | t :: _ => fromClause t

/-- The final f-string of generate_sql: SELECT, space, the comma-joined
column list, space, the FROM clause, the concatenated JOIN clauses and
a semicolon. -/
def assemble (tables : List TableDescriptor) : List Char :=
  "SELECT".toList ++ (' ' :: List.intercalate ", ".toList (selectColumns tables)) ++
    (' ' :: firstFromClause tables) ++ (joinClauses tables).flatten ++ [';']

/-- The aggregate join-condition test of the source: some table at an
index above zero has a falsy join condition. -/
def missingJoinFlag (tables : List TableDescriptor) : Bool :=
  tables.enum.any (fun p => decide (0 < p.1) && !truthy p.2.join_condition)

/-- Everything generate_sql does after splitting the query into lines:
validate each table in order, then the aggregate join check, then
assembly. -/
def process_tables (tables : List TableDescriptor) : List Char :=
  match validateTables tables with
  | some e => e
  | none => if missingJoinFlag tables then errMissingJoin else assemble tables

/-- The descriptors parsed from the trimmed query, one per line. -/
def tablesOf (query : List Char) : List TableDescriptor :=
  (splitWhen (fun c => c == '\n') (pyStrip query)).map parse_table_line

/-- The entry point generate_sql of the source. -/
def generate_sql (query : List Char) : List Char :=
  let lines := splitWhen (fun c => c == '\n') (pyStrip query)
  if lines = [] then errEmptyQuery
  else process_tables (lines.map parse_table_line)

/-- An error message names an identifier when the identifier occurs
verbatim inside the message text. -/
def NamesSub (pat msg : List Char) : Prop :=
  ∃ pre post, msg = pre ++ pat ++ post

/-- Claim-side reading of the per-descriptor checks: the first violated
invariant in the priority order invalid table name, invalid alias when
an alias is present (read as Python truthiness), then any invalid
non-wildcard column. -/
def specFirstViolation (t : TableDescriptor) : Option (List Char) :=
  if is_valid_name t.name = false then
    some (errInvalidTable t.name)
  else if truthy t.«alias» = true ∧ is_valid_name (t.«alias».getD []) = false then
    some (errInvalidAlias (t.«alias».getD []))
  else if ∃ col ∈ t.columns, col ≠ ['*'] ∧ is_valid_name col = false then
    some errInvalidColumns
  else
    none

/-- Claim-side staging of generate: validate every descriptor in input
order and stop at the first violation; only after all descriptors pass
run the aggregate join-condition check, which yields one single message
however many descriptors after the first lack a non-empty join
condition; only then assemble. -/
def specStagedGenerate (query : List Char) : List Char :=
  let tables := tablesOf query
  match tables.findSome? specFirstViolation with
  | some e => e
  | none =>
    if ∃ t ∈ tables.drop 1, truthy t.join_condition = false then errMissingJoin
    else assemble tables

/-- Claim-side reading of the columns rule: the wildcard default is
used exactly when the columns segment is absent or the empty string,
and otherwise the segment is split on whitespace. -/
def columnsClaim (line : List Char) : List (List Char) :=
  let segs := pySplitOn " : ".toList (pyStrip line)
  if segs.length ≤ 1 ∨ segs.getD 1 [] = [] then [['*']]
  else pySplitWs (segs.getD 1 [])

/-- Claim-side alias rule on a token list: the token immediately after
the first occurrence of the standalone token "-", or none when "-" is
the last token or absent. -/
def aliasFromTokens (toks : List (List Char)) : Option (List Char) :=
  match toks.dropWhile (fun p => !(p == ['-'])) with
  | [] => none
  | [_] => none
  | _ :: a :: _ => some a

/-- The whitespace-token reading of the table-spec segment used by the
claim about the line parser. -/
def wsTokensOfLine (line : List Char) : List (List Char) :=
  pySplitWs ((pySplitOn " : ".toList (pyStrip line)).headD [])

/-- The single-space token list of the table-spec segment, as actually
computed by the source. -/
def spaceTokensOfLine (line : List Char) : List (List Char) :=
  splitWhen (fun c => c == ' ') ((pySplitOn " : ".toList (pyStrip line)).headD [])

/-! ## Helper lemmas -/

/-- Splitting on a character always yields at least one piece. -/
theorem splitWhen_ne_nil (p : Char → Bool) (s : List Char) : splitWhen p s ≠ [] := by
  cases s with
  | nil => simp [splitWhen]
  | cons c cs =>
    rw [splitWhen]
    split
    · simp
    · cases h : splitWhen p cs <;> simp [h]

/-- The empty-query branch of generate_sql is never taken, so the
function is the post-split pipeline on the parsed descriptors. -/
theorem generate_sql_eq (q : List Char) :
    generate_sql q = process_tables (tablesOf q) := by
  unfold generate_sql tablesOf
  rw [if_neg (splitWhen_ne_nil _ _)]

theorem errInvalidTable_take7 (n : List Char) :
    (errInvalidTable n).take 7 = "Ошибка:".toList := by
  have h : (7 : Nat) ≤ ("Ошибка: Имя таблицы '".toList).length := by decide
  rw [errInvalidTable, List.append_assoc, List.take_append_of_le_length h]
  decide

theorem errInvalidAlias_take7 (a : List Char) :
    (errInvalidAlias a).take 7 = "Ошибка:".toList := by
  have h : (7 : Nat) ≤ ("Ошибка: Псевдоним '".toList).length := by decide
  rw [errInvalidAlias, List.append_assoc, List.take_append_of_le_length h]
  decide

theorem take7_select (r : List Char) :
    ("SELECT".toList ++ (' ' :: r)).take 7 = "SELECT ".toList := by
  show ((['S', 'E', 'L', 'E', 'C', 'T'] : List Char) ++ (' ' :: r)).take 7 =
    ['S', 'E', 'L', 'E', 'C', 'T', ' ']
  simp

theorem assemble_take7 (ts : List TableDescriptor) :
    (assemble ts).take 7 = "SELECT ".toList := by
  rw [assemble]
  simp only [List.append_assoc, List.cons_append]
  exact take7_select _

/-- Each possible value of the per-line validation. -/
theorem checkTable_classify (t : TableDescriptor) (e : List Char)
    (h : checkTable t = some e) :
    (∃ n, e = errInvalidTable n) ∨ (∃ a, e = errInvalidAlias a) ∨ e = errInvalidColumns := by
  unfold checkTable at h
  split at h
  · exact Or.inl ⟨t.name, (Option.some_inj.mp h).symm⟩
  · split at h
    · exact Or.inr (Or.inl ⟨t.«alias».getD [], (Option.some_inj.mp h).symm⟩)
    · split at h
      · exact Or.inr (Or.inr (Option.some_inj.mp h).symm)
      · cases h

/-- Every error returned by the validation loop comes from one of the
three per-line checks. -/
theorem validateTables_classify (ts : List TableDescriptor) (e : List Char)
    (h : validateTables ts = some e) : ∃ t ∈ ts, checkTable t = some e := by
  induction ts with
  | nil => cases h
  | cons t ts ih =>
    rw [validateTables] at h
    cases hc : checkTable t with
    | some e2 =>
      simp only [hc] at h
      exact ⟨t, List.mem_cons_self t ts, by rw [hc, h]⟩
    | none =>
      simp only [hc] at h
      obtain ⟨t2, ht2, he⟩ := ih h
      exact ⟨t2, List.mem_cons_of_mem t ht2, he⟩

/-- An interpolated table-name error never equals the empty-query text. -/
theorem errInvalidTable_ne_empty (n : List Char) : errInvalidTable n ≠ errEmptyQuery := by
  intro h
  have h9 := congrArg (List.take 9) h
  have hle : (9 : Nat) ≤ ("Ошибка: Имя таблицы '".toList).length := by decide
  rw [errInvalidTable, List.append_assoc, List.take_append_of_le_length hle] at h9
  exact absurd h9 (by decide)

/-- An interpolated alias error never equals the empty-query text. -/
theorem errInvalidAlias_ne_empty (a : List Char) : errInvalidAlias a ≠ errEmptyQuery := by
  intro h
  have h9 := congrArg (List.take 9) h
  have hle : (9 : Nat) ≤ ("Ошибка: Псевдоним '".toList).length := by decide
  rw [errInvalidAlias, List.append_assoc, List.take_append_of_le_length hle] at h9
  exact absurd h9 (by decide)

/-- An assembled SQL statement never equals the empty-query text. -/
theorem assemble_ne_empty (ts : List TableDescriptor) : assemble ts ≠ errEmptyQuery := by
  intro h
  have h7 := congrArg (List.take 7) h
  rw [assemble_take7] at h7
  exact absurd h7 (by decide)

/-- The post-split pipeline never produces the empty-query text. -/
theorem process_tables_ne_empty (ts : List TableDescriptor) :
    process_tables ts ≠ errEmptyQuery := by
  unfold process_tables
  cases hv : validateTables ts with
  | some e =>
    show e ≠ errEmptyQuery
    obtain ⟨t, -, hc⟩ := validateTables_classify ts e hv
    rcases checkTable_classify t e hc with ⟨n, rfl⟩ | ⟨a, rfl⟩ | rfl
    · exact errInvalidTable_ne_empty n
    · exact errInvalidAlias_ne_empty a
    · exact (by decide : errInvalidColumns ≠ errEmptyQuery)
  | none =>
    show (if missingJoinFlag ts = true then errMissingJoin else assemble ts) ≠ errEmptyQuery
    split
    · exact (by decide : errMissingJoin ≠ errEmptyQuery)
    · exact assemble_ne_empty ts

/-- Every result of the pipeline starts with the seven characters of
either SELECT-space or the error marker. -/
theorem process_tables_take7 (ts : List TableDescriptor) :
    (process_tables ts).take 7 = "SELECT ".toList ∨
      (process_tables ts).take 7 = "Ошибка:".toList := by
  unfold process_tables
  cases hv : validateTables ts with
  | some e =>
    show e.take 7 = "SELECT ".toList ∨ e.take 7 = "Ошибка:".toList
    obtain ⟨t, -, hc⟩ := validateTables_classify ts e hv
    rcases checkTable_classify t e hc with ⟨n, rfl⟩ | ⟨a, rfl⟩ | rfl
    · exact Or.inr (errInvalidTable_take7 n)
    · exact Or.inr (errInvalidAlias_take7 a)
    · exact Or.inr (by decide)
  | none =>
    show ((if missingJoinFlag ts = true then errMissingJoin else assemble ts)).take 7 =
        "SELECT ".toList ∨
      ((if missingJoinFlag ts = true then errMissingJoin else assemble ts)).take 7 =
        "Ошибка:".toList
    split
    · exact Or.inr (by decide)
    · exact Or.inl (assemble_take7 ts)

/-! ## The claims -/

/-- C1: on the two-line example input the generator returns exactly the
documented SQL string, with alias-qualified columns in input order, the
first table as a FROM clause with AS, the second as a JOIN on its own
line, and one trailing semicolon. -/
theorem claim_C1 :
    generate_sql ("customers - c : name age\norders - o : order_date : c.id = o.customer_id".toList) =
      ("SELECT c.name, c.age, o.order_date FROM customers AS c\nJOIN orders AS o ON c.id = o.customer_id;".toList) := by
  rfl

/-- C4 counterexample: on the input of the claim the code does not
return the claimed wildcard SELECT; the trimmed line splits into the
segments products and colon, so the colon becomes a column token and
the fixed invalid-column error is returned instead. -/
theorem claim_C4_counterexample :
    generate_sql ("products : : ".toList) = errInvalidColumns ∧
      generate_sql ("products : : ".toList) ≠
        ("SELECT products.* FROM products;".toList) := by
  exact ⟨by rfl, by decide⟩

/-- C4 amended: the input of the claim yields the invalid-column error,
because trimming leaves a lone colon as the columns segment; the
claimed output arises for the input products with no segments at all,
where the empty columns list defaults to the wildcard qualified by the
table name. -/
theorem claim_C4 :
    generate_sql ("products : : ".toList) = errInvalidColumns ∧
      generate_sql ("products".toList) = ("SELECT products.* FROM products;".toList) := by
  exact ⟨by rfl, by rfl⟩

/-- C5: the empty-query branch is dead code: splitting always yields at
least one line, so no input ever produces the empty-query message; the
empty and whitespace-only inputs instead fail table-name validation
with an empty interpolated name. -/
theorem claim_C5 :
    (∀ q : List Char, generate_sql q ≠ errEmptyQuery) ∧
      generate_sql [] = errInvalidTable [] ∧
      generate_sql ("   ".toList) = errInvalidTable [] := by
  refine ⟨fun q => ?_, by rfl, by rfl⟩
  rw [generate_sql_eq]
  exact process_tables_ne_empty _

/-- C3 counterexample: an input with an invalid column identifier gets
the fixed invalid-column error, which does not name the offending
identifier anywhere in its text. -/
theorem claim_C3_counterexample :
    generate_sql ("t : 9bad".toList) = errInvalidColumns ∧
      ¬ NamesSub ("9bad".toList) (generate_sql ("t : 9bad".toList)) := by
  refine ⟨by rfl, ?_⟩
  rintro ⟨pre, post, h⟩
  have h9 : '9' ∈ generate_sql ("t : 9bad".toList) := by
    rw [h]
    simp
  rw [(by rfl : generate_sql ("t : 9bad".toList) = errInvalidColumns)] at h9
  exact absurd h9 (by decide)

/-- C3 amended: table-name and alias errors name the offending
identifier verbatim, the invalid-column error is a fixed message that
names no identifier, and every result of generate starts either with
SELECT-space or with the error marker, so no error string leads with
the keywords SELECT or FROM. -/
theorem claim_C3 :
    (∀ q : List Char, (generate_sql q).take 7 = "SELECT ".toList ∨
        (generate_sql q).take 7 = "Ошибка:".toList) ∧
      (∀ n : List Char, NamesSub n (errInvalidTable n)) ∧
      (∀ a : List Char, NamesSub a (errInvalidAlias a)) ∧
      errInvalidColumns.take 7 = "Ошибка:".toList := by
  refine ⟨fun q => ?_, fun n => ?_, fun a => ?_, by decide⟩
  · rw [generate_sql_eq]
    exact process_tables_take7 _
  · exact ⟨"Ошибка: Имя таблицы '".toList, "' недопустимо или зарезервировано.".toList, rfl⟩
  · exact ⟨"Ошибка: Псевдоним '".toList, "' недопустим или зарезервирован.".toList, rfl⟩

/-- C8 counterexample: the validator accepts a name with a trailing
newline, which matches the regex through the dollar anchor although the
whole string does not have the identifier shape. -/
theorem claim_C8_counterexample :
    is_valid_name ("abc\n".toList) = true ∧ matchesShape ("abc\n".toList) = false := by
  exact ⟨by rfl, by rfl⟩

/-- C8 amended: acceptance implies the identifier shape over the whole
string, except that one trailing newline is also tolerated by the
dollar anchor of the Python regex; any other extraneous character still
forces rejection. -/
theorem claim_C8 (s : List Char) (h : is_valid_name s = true) :
    matchesShape s = true ∨ (s.getLast? = some '\n' ∧ matchesShape s.dropLast = true) := by
  rw [is_valid_name, Bool.and_eq_true] at h
  have h1 := h.1
  rw [regexMatchValidName, Bool.or_eq_true] at h1
  rcases h1 with h1 | h2
  · exact Or.inl h1
  · rw [Bool.and_eq_true] at h2
    exact Or.inr ⟨by simpa using h2.1, h2.2⟩

/-- Closed instance of the amended C8 theorem at a concrete accepted
identifier. -/
theorem claim_C8_witness :
    matchesShape ("abc".toList) = true ∨
      (("abc".toList).getLast? = some '\n' ∧ matchesShape (("abc".toList).dropLast) = true) :=
  claim_C8 ("abc".toList) (by decide)

/-- C9: a name whose upper-cased form is one of the 26 reserved words
is always rejected by the validator, and the input of the claim yields
the table-name error naming SELECT. -/
theorem claim_C9 :
    (∀ s : List Char, SQL_RESERVED_KEYWORDS.contains (pyUpper s) = true →
        is_valid_name s = false) ∧
      generate_sql ("SELECT : id".toList) = errInvalidTable ("SELECT".toList) ∧
      NamesSub ("SELECT".toList) (generate_sql ("SELECT : id".toList)) := by
  refine ⟨fun s h => ?_, by rfl, ?_⟩
  · rw [is_valid_name, h]
    simp
  · exact ⟨"Ошибка: Имя таблицы '".toList, "' недопустимо или зарезервировано.".toList, by rfl⟩

/-- Closed instance of the reserved-word rejection at a lower-case
reserved word. -/
theorem claim_C9_witness : is_valid_name ("select".toList) = false :=
  claim_C9.1 ("select".toList) (by decide)

/-- The boolean column check of the source is the existence of an
invalid non-wildcard column. -/
theorem colCheck_iff (cols : List (List Char)) :
    (!((cols.filter (fun col => !(col == ['*']))).all is_valid_name)) = true ↔
      ∃ col ∈ cols, col ≠ ['*'] ∧ is_valid_name col = false := by
  simp [List.all_eq_false, List.mem_filter, and_assoc]

/-- The per-line check of the source agrees with the claim-side
priority reading of the three invariants. -/
theorem checkTable_eq_spec (t : TableDescriptor) :
    checkTable t = specFirstViolation t := by
  rw [checkTable, specFirstViolation]
  cases h1 : is_valid_name t.name with
  | false => simp [h1]
  | true =>
    simp only [h1, Bool.not_true, Bool.false_eq_true, if_false, if_neg]
    cases h2a : truthy t.«alias» with
    | true =>
      cases h2b : is_valid_name (t.«alias».getD []) with
      | false => simp [h2a, h2b]
      | true =>
        simp only [h2a, h2b, Bool.not_true, Bool.and_false, Bool.false_eq_true, if_false]
        by_cases h3 : ∃ col ∈ t.columns, col ≠ ['*'] ∧ is_valid_name col = false
        · rw [if_pos ((colCheck_iff t.columns).mpr h3)]
          simp [h3]
        · rw [if_neg (fun hc => h3 ((colCheck_iff t.columns).mp hc))]
          simp [h3]
    | false =>
      simp only [h2a, Bool.false_and, Bool.false_eq_true, if_false]
      by_cases h3 : ∃ col ∈ t.columns, col ≠ ['*'] ∧ is_valid_name col = false
      · rw [if_pos ((colCheck_iff t.columns).mpr h3)]
        simp [h3]
      · rw [if_neg (fun hc => h3 ((colCheck_iff t.columns).mp hc))]
        simp [h3]

/-- The early-return validation loop is the first successful result of
the claim-side per-descriptor check, in input order. -/
theorem validateTables_eq_spec (ts : List TableDescriptor) :
    validateTables ts = ts.findSome? specFirstViolation := by
  induction ts with
  | nil => rfl
  | cons t ts ih =>
    rw [validateTables, List.findSome?_cons, ← checkTable_eq_spec]
    cases checkTable t <;> simp [ih]

/-- For positive start indices the indexed join test is index-free. -/
theorem enumFrom_any_join (ts : List TableDescriptor) :
    ∀ n : Nat, 0 < n →
      ((List.enumFrom n ts).any fun p => decide (0 < p.1) && !truthy p.2.join_condition) =
        ts.any (fun t => !truthy t.join_condition) := by
  induction ts with
  | nil => intro n _; rfl
  | cons t ts ih =>
    intro n h
    have hd : decide (0 < n) = true := decide_eq_true h
    simp [List.enumFrom, List.any_cons, hd, ih (n + 1) (Nat.succ_pos n)]

/-- The aggregate join flag of the source holds exactly when some
descriptor after the first lacks a truthy join condition. -/
theorem missingJoinFlag_iff (ts : List TableDescriptor) :
    missingJoinFlag ts = true ↔ ∃ t ∈ ts.drop 1, truthy t.join_condition = false := by
  cases ts with
  | nil => simp [missingJoinFlag, List.enum]
  | cons t ts =>
    rw [missingJoinFlag, List.enum_cons, List.any_cons, enumFrom_any_join ts 1 (by decide)]
    simp [Bool.not_eq_true']

/-- C2: the generator equals the claim-side staged pipeline: per-line
invariants are checked in input order with the stated priority and the
first violation is returned at once; the aggregate join-condition check
runs only after every line passed, and produces one single message no
matter how many descriptors after the first lack a join condition. -/
theorem claim_C2 : ∀ q : List Char, generate_sql q = specStagedGenerate q := by
  intro q
  rw [generate_sql_eq]
  unfold process_tables
  simp only [specStagedGenerate]
  rw [validateTables_eq_spec]
  cases hfs : (tablesOf q).findSome? specFirstViolation with
  | some e => rfl
  | none =>
    show (if missingJoinFlag (tablesOf q) = true then errMissingJoin
        else assemble (tablesOf q)) =
      (if ∃ t ∈ (tablesOf q).drop 1, truthy t.join_condition = false then errMissingJoin
        else assemble (tablesOf q))
    by_cases hj : ∃ t ∈ (tablesOf q).drop 1, truthy t.join_condition = false
    · rw [if_pos ((missingJoinFlag_iff _).mpr hj), if_pos hj]
    · rw [if_neg (fun hc => hj ((missingJoinFlag_iff _).mp hc)), if_neg hj]

/-- C6: the parsed columns are the wildcard default exactly when the
columns segment is absent or empty and the whitespace-split token list
otherwise; with the segment absent the table contributes its qualified
wildcard to the SELECT list. -/
theorem claim_C6 : ∀ line : List Char,
    (parse_table_line line).columns = columnsClaim line ∧
      ((pySplitOn " : ".toList (pyStrip line)).length ≤ 1 →
        formatted_columns (parse_table_line line) =
          [aliasOrName (parse_table_line line) ++ ".*".toList]) := by
  intro line
  have hcol : (parse_table_line line).columns = columnsClaim line := by
    simp only [parse_table_line, columnsClaim]
    by_cases h1 : 1 < (pySplitOn " : ".toList (pyStrip line)).length ∧
        (pySplitOn " : ".toList (pyStrip line)).getD 1 [] ≠ []
    · rw [if_pos h1, if_neg (by
        rintro (hle | hempty)
        · exact absurd h1.1 (Nat.not_lt.mpr hle)
        · exact h1.2 hempty)]
    · rw [if_neg h1, if_pos (by
        rcases not_and_or.mp h1 with h | h
        · exact Or.inl (Nat.not_lt.mp h)
        · exact Or.inr (not_not.mp h))]
  refine ⟨hcol, fun hlen => ?_⟩
  have hstar : (parse_table_line line).columns = [['*']] := by
    rw [hcol]
    simp only [columnsClaim]
    rw [if_pos (Or.inl hlen)]
  rw [formatted_columns, hstar]
  rfl

/-- Closed instance of C6 at a line with no columns segment. -/
theorem claim_C6_witness :
    formatted_columns (parse_table_line ("products".toList)) =
      [aliasOrName (parse_table_line ("products".toList)) ++ ".*".toList] :=
  (claim_C6 ("products".toList)).2 (by decide)

/-- On a token list headed by the dash token both alias rules give the
next token. -/
theorem aliasOfParts_dash (ts : List (List Char)) :
    aliasOfParts (['-'] :: ts) = ts.head? := by
  cases ts with
  | nil => simp [aliasOfParts, List.findIdx_cons]
  | cons a rest => simp [aliasOfParts, List.findIdx_cons]

theorem aliasFromTokens_dash (ts : List (List Char)) :
    aliasFromTokens (['-'] :: ts) = ts.head? := by
  cases ts with
  | nil => simp [aliasFromTokens, List.dropWhile_cons]
  | cons a rest => simp [aliasFromTokens, List.dropWhile_cons]

/-- A leading token other than the dash is transparent to the alias
rule of the source. -/
theorem aliasOfParts_skip (t : List Char) (ts : List (List Char)) (hd : t ≠ ['-']) :
    aliasOfParts (t :: ts) = aliasOfParts ts := by
  have hbeq : ((['-'] : List Char) == t) = false := beq_eq_false_iff_ne.mpr (Ne.symm hd)
  have hbeq2 : (t == (['-'] : List Char)) = false := beq_eq_false_iff_ne.mpr hd
  rw [aliasOfParts, aliasOfParts, List.contains_cons, hbeq, Bool.false_or]
  by_cases hc : ts.contains (['-'] : List Char) = true
  · rw [if_pos hc, if_pos hc]
    simp only [List.findIdx_cons, hbeq2, cond_false]
    rw [List.length_cons]
    by_cases hlt : ts.findIdx (fun p => p == ['-']) + 1 < ts.length
    · rw [if_pos (Nat.succ_lt_succ hlt), if_pos hlt, List.getD_cons_succ]
    · rw [if_neg (fun hcon => hlt (Nat.lt_of_succ_lt_succ hcon)), if_neg hlt]
  · rw [if_neg hc, if_neg hc]

/-- A leading token other than the dash is transparent to the
claim-side alias rule. -/
theorem aliasFromTokens_skip (t : List Char) (ts : List (List Char)) (hd : t ≠ ['-']) :
    aliasFromTokens (t :: ts) = aliasFromTokens ts := by
  have hbeq : (t == (['-'] : List Char)) = false := beq_eq_false_iff_ne.mpr hd
  rw [aliasFromTokens, aliasFromTokens, List.dropWhile_cons, if_pos (by simp [hbeq])]

/-- The alias computed by the source equals the claim-side rule on the
same token list. -/
theorem aliasOfParts_eq (toks : List (List Char)) :
    aliasOfParts toks = aliasFromTokens toks := by
  induction toks with
  | nil => rfl
  | cons t ts ih =>
    by_cases hd : t = ['-']
    · subst hd
      rw [aliasOfParts_dash, aliasFromTokens_dash]
    · rw [aliasOfParts_skip t ts hd, aliasFromTokens_skip t ts hd, ih]

/-- C7 counterexample: on a line with two spaces after the dash the
source takes the empty token after the dash as the alias, while the
whitespace-token reading of the claim yields the next word. -/
theorem claim_C7_counterexample :
    (parse_table_line ("a -  b".toList)).«alias» = some [] ∧
      aliasFromTokens (wsTokensOfLine ("a -  b".toList)) = some ("b".toList) ∧
      (parse_table_line ("a -  b".toList)).«alias» ≠
        aliasFromTokens (wsTokensOfLine ("a -  b".toList)) := by
  exact ⟨by rfl, by rfl, by decide⟩

/-- C7 amended: the table-spec segment is split on single spaces with
empty tokens kept, the first token is the table name, and the alias is
the token immediately after the first dash token, or none when the dash
is the last token; a trailing dash is not an error at this stage. -/
theorem claim_C7 : ∀ line : List Char,
    (parse_table_line line).name = (spaceTokensOfLine line).headD [] ∧
      (parse_table_line line).«alias» = aliasFromTokens (spaceTokensOfLine line) := by
  intro line
  exact ⟨rfl, aliasOfParts_eq (spaceTokensOfLine line)⟩

/-- C10: the join condition parsed from the first line never reaches
the output: two queries whose descriptor lists agree except in the
first join condition generate identical results, whether SQL or error. -/
theorem claim_C10 (q q2 : List Char) (t : TableDescriptor) (j j2 : Option (List Char))
    (ts : List TableDescriptor)
    (h : tablesOf q = { t with join_condition := j } :: ts)
    (h2 : tablesOf q2 = { t with join_condition := j2 } :: ts) :
    generate_sql q = generate_sql q2 := by
  rw [generate_sql_eq, generate_sql_eq, h, h2]
  rfl

/-- Closed instance of C10: adding a join segment to the only line of a
valid query leaves the generated SQL unchanged. -/
theorem claim_C10_witness :
    generate_sql ("a : x".toList) = generate_sql ("a : x : j".toList) :=
  claim_C10 _ _
    { name := "a".toList, «alias» := none, columns := ["x".toList], join_condition := none }
    none (some ("j".toList)) [] (by rfl) (by rfl)

end SQLBot